import Mathlib

/-!
Verification of the client-side conversion-job lifecycle and batch
orchestration of the file-converter web application.

The definitions below are a shallow embedding of the relevant JavaScript:

* ErrorHandler.validateFile and its error messages (utils/errorHandler.js);
* the conversion objects and the state updates performed by the
  IframeHeroSection -- the component state hooks become fields of
  BatchSession, and each setConversions update becomes a pure function;
* getSupportedFormats (the static format capability table);
* handleFormatChange, handleConvertAll, handleDownloadAll, handleDownload,
  removeFile;
* the validating handleFiles of the HeroSection variant that imports the
  error handler.

Asynchronous effects are made explicit: the outcome of one backend
conversion request is a parameter (an Except value per job id), and the
download timers are represented by the list of (jobId, delayMs) pairs the
forEach/setTimeout loop schedules.
-/

namespace Converte

/-- A browser File object as far as the code reads it: display name,
MIME type string, and size in bytes. -/
structure JsFile where
  name : String
  type : String
  size : Nat
deriving DecidableEq, Repr

/-- A ValidationError as constructed in errorHandler.js: the user-facing
message and the field the error refers to. -/
structure ValidationError where
  message : String
  field : String
deriving DecidableEq, Repr

/-- ERROR_MESSAGES[FILE_TOO_LARGE]. -/
def msgFileTooLarge : String := "File is too large. Maximum size is 1GB."

/-- ERROR_MESSAGES[EMPTY_FILE]. -/
def msgEmptyFile : String := "The file is empty."

/-- ERROR_MESSAGES[UNSUPPORTED_FORMAT]. -/
def msgUnsupportedFormat : String := "This file format is not supported."

/-- The MIME-type prefixes accepted by ErrorHandler.validateFile. -/
def supportedTypes : List String :=
  ["image/", "video/", "audio/", "application/pdf",
   "application/msword",
   "application/vnd.openxmlformats-officedocument.wordprocessingml.document",
   "text/", "application/vnd.ms-excel",
   "application/vnd.openxmlformats-officedocument.spreadsheetml.sheet"]

/-- The file extensions accepted by ErrorHandler.validateFile when the MIME
type is not recognised. -/
def supportedExtensions : List String :=
  ["jpg", "jpeg", "png", "gif", "bmp", "tiff", "webp", "svg", "ico",
   "mp4", "avi", "mov", "wmv", "flv", "mkv", "webm", "ogv", "m4v",
   "mp3", "wav", "flac", "aac", "ogg", "m4a", "wma", "aiff", "au",
   "pdf", "doc", "docx", "txt", "rtf", "odt", "epub", "mobi",
   "xls", "xlsx", "csv", "ods", "ppt", "pptx", "odp",
   "zip", "rar", "7z", "tar", "gz", "bz2"]

/-- The JS receiver.startsWith(arg) on strings. -/
def strStartsWith (s pre : String) : Bool := pre.data.isPrefixOf s.data

/-- ASCII lower-casing of one character, as toLowerCase does on the
extension alphabet. -/
def lowerChar (c : Char) : Char :=
  if 65 ≤ c.toNat ∧ c.toNat ≤ 90 then Char.ofNat (c.toNat + 32) else c

/-- The JS receiver.toLowerCase() on strings. -/
def strToLower (s : String) : String := String.mk (s.data.map lowerChar)

/-- The JS receiver.split(sep) on strings, over the character list. -/
def splitOnChar (sep : Char) : List Char → List (List Char)
  | [] => [[]]
  | c :: rest =>
    match splitOnChar sep rest with
    | [] => [[]]
    | seg :: segs => if c = sep then [] :: seg :: segs else (c :: seg) :: segs

/-- The lower-cased extension: name.split(dot).pop().toLowerCase(). -/
def extensionOf (name : String) : String :=
  strToLower (String.mk ((splitOnChar '.' name.data).getLastD []))

/-- ErrorHandler.validateFile: pushes a FileTooLarge error when the size
exceeds 1GB, an EmptyFile error when the size is zero, and an
UnsupportedFormat error when neither the MIME type nor the lower-cased
final extension of a non-empty file name is recognised. -/
def validateFile (file : JsFile) : List ValidationError :=
  ((if file.size > 1024 * 1024 * 1024 then
      [{ message := msgFileTooLarge, field := "size" }] else []) ++
   (if file.size = 0 then
      [{ message := msgEmptyFile, field := "size" }] else [])) ++
  (if !(supportedTypes.any (fun t => strStartsWith file.type t)) &&
      file.name != "" &&
      !(supportedExtensions.contains (extensionOf file.name))
   then [{ message := msgUnsupportedFormat, field := "type" }] else [])

/-- The per-job status strings of the conversion components. -/
inductive Status where
  | ready
  | converting
  | completed
  | failed
deriving DecidableEq, Repr

/-- One conversion object as created by handleFiles. The raw File reference
and the converted Blob of the source object are not modeled; the download
handle (downloadUrl) stands for the success payload. The ids of the
source (strings or numbers in the different variants) are modeled as Nat. -/
structure ConversionJob where
  id : Nat
  originalFormat : String
  targetFormat : String
  status : Status
  progress : Nat
  supportedFormats : List String
  downloadUrl : Option String
  error : Option String
deriving DecidableEq, Repr

/-- The spread update of handleFormatChange applied to the matching job. -/
def selectTargetUpd (format : String) (c : ConversionJob) : ConversionJob :=
  { c with targetFormat := format }

/-- The spread update that begins a conversion inside handleConvertAll. -/
def startJob (c : ConversionJob) : ConversionJob :=
  { c with status := Status.converting, progress := 0 }

/-- The spread update of a progress event: it overwrites the recorded
progress with the delivered value.  This is both the per-step update of the
simulated progress loop and the merge performed by the WebSocket onmessage
handler. -/
def progressUpdate (p : Nat) (c : ConversionJob) : ConversionJob :=
  { c with progress := p }

/-- The spread update that marks a conversion completed: status, pinned
progress and the download handle are written; no other field is touched. -/
def succeedJob (url : String) (c : ConversionJob) : ConversionJob :=
  { c with status := Status.completed, progress := 100, downloadUrl := some url }

/-- The spread update of the catch branch that marks a conversion failed:
status, progress = 0 and the error message are written; no other field is
touched. -/
def failJob (msg : String) (c : ConversionJob) : ConversionJob :=
  { c with status := Status.failed, progress := 0, error := some msg }

/-- The events a single job can receive. -/
inductive JobEvent where
  | selectTarget (format : String)
  | start
  | progress (p : Nat)
  | succeed (url : String)
  | fail (msg : String)
deriving DecidableEq, Repr

/-- Apply one event to one job, exactly as the corresponding spread update
in the source does. -/
def applyEvent (c : ConversionJob) : JobEvent → ConversionJob
  | JobEvent.selectTarget f => selectTargetUpd f c
  | JobEvent.start => startJob c
  | JobEvent.progress p => progressUpdate p c
  | JobEvent.succeed url => succeedJob url c
  | JobEvent.fail msg => failJob msg c

/-- Run a sequence of events against a job. -/
def runEvents (c : ConversionJob) (es : List JobEvent) : ConversionJob :=
  es.foldl applyEvent c

/-- getSupportedFormats of the iframe component: the static format map with
its generic fallback list. -/
def getSupportedFormats (originalFormat : String) : List String :=
  if originalFormat = "JPG" then ["PNG", "WEBP", "BMP", "TIFF", "GIF", "PDF", "ICO", "SVG"]
  else if originalFormat = "PNG" then ["JPG", "WEBP", "BMP", "TIFF", "GIF", "PDF", "ICO", "SVG"]
  else if originalFormat = "PDF" then ["DOC", "DOCX", "TXT", "RTF", "ODT", "JPG", "PNG"]
  else if originalFormat = "MP4" then ["AVI", "MOV", "WMV", "FLV", "MKV", "WEBM", "MP3", "WAV"]
  else if originalFormat = "MP3" then ["WAV", "FLAC", "AAC", "OGG", "M4A", "WMA", "AIFF"]
  else if originalFormat = "DOCX" then ["DOC", "PDF", "TXT", "RTF", "ODT"]
  else ["PDF", "JPG", "PNG", "TXT"]

/-- The source formats that have an explicit entry in the format map. -/
def advertisedSourceFormats : List String :=
  ["JPG", "PNG", "PDF", "MP4", "MP3", "DOCX"]

/-- The component state hooks that the claims are about, gathered into one
record: selectedFiles, conversions, completedConversions (the appended list
of completed ids), showConversionInterface and isConverting. -/
structure BatchSession where
  selectedFiles : List JsFile
  conversions : List ConversionJob
  completedConversions : List Nat
  showConversionInterface : Bool
  isConverting : Bool
deriving DecidableEq, Repr

/-- The mapper of handleFormatChange: only the matching job gets its
targetFormat replaced. -/
def fmtUpd (conversionId : Nat) (format : String) (c : ConversionJob) : ConversionJob :=
  if c.id = conversionId then { c with targetFormat := format } else c

/-- handleFormatChange: setConversions(prev mapped by fmtUpd). -/
def handleFormatChange (conversionId : Nat) (format : String) (s : BatchSession) : BatchSession :=
  { s with conversions := s.conversions.map (fmtUpd conversionId format) }

/-- One update by id, as every setConversions call inside the convert loop
performs: prev mapped, replacing only the jobs whose id matches. -/
def setById (conversionId : Nat) (f : ConversionJob → ConversionJob)
    (l : List ConversionJob) : List ConversionJob :=
  l.map (fun c => if c.id = conversionId then f c else c)

/-- The five iterations of the simulated progress loop
(progress = 10, 30, 50, 70, 90), composed. -/
def progressSim (c : ConversionJob) : ConversionJob :=
  progressUpdate 90 (progressUpdate 70 (progressUpdate 50
    (progressUpdate 30 (progressUpdate 10 c))))

/-- One iteration of the convert-all loop for the selected job j.  The
outcome parameter stands for the effect of the conversion request: ok with
the produced download handle, or error with the caught message.  On success
the matching job goes through startJob, the progress loop and succeedJob,
and its id is appended to completedConversions; on failure it goes through
startJob and failJob. -/
def convertOne (outcome : Nat → Except String String) (s : BatchSession)
    (j : ConversionJob) : BatchSession :=
  match outcome j.id with
  | Except.ok url =>
      { s with
        conversions :=
          setById j.id (fun c => succeedJob url (progressSim (startJob c))) s.conversions
        completedConversions := s.completedConversions ++ [j.id] }
  | Except.error msg =>
      { s with
        conversions := setById j.id (fun c => failJob msg (startJob c)) s.conversions }

/-- The toast title shown when no job has a target format selected. -/
def validationMsg : String := "Please select output formats"

/-- handleConvertAll: filter the jobs with a truthy targetFormat; if none,
show the validation toast and return; otherwise set isConverting, run the
loop over the selected jobs, and clear isConverting.  The second component
is the validation toast, when shown. -/
def handleConvertAll (outcome : Nat → Except String String) (s : BatchSession) :
    BatchSession × Option String :=
  if (s.conversions.filter (fun c => c.targetFormat != "")).isEmpty then
    (s, some validationMsg)
  else
    ({ (s.conversions.filter (fun c => c.targetFormat != "")).foldl
         (convertOne outcome) { s with isConverting := true } with
       isConverting := false },
     none)

/-- removeFile: drop the job from conversions; when the pre-update list had
exactly one element, also leave the conversion interface and clear the
selected files.  completedConversions is not touched. -/
def removeFile (conversionId : Nat) (s : BatchSession) : BatchSession :=
  if s.conversions.length = 1 then
    { s with
      conversions := s.conversions.filter (fun c => c.id != conversionId)
      showConversionInterface := false
      selectedFiles := [] }
  else
    { s with conversions := s.conversions.filter (fun c => c.id != conversionId) }

/-- The (jobId, delayMs) pairs produced by forEach((conversion, index) =>
setTimeout(... , index * 500)). -/
def staggered : Nat → List ConversionJob → List (Nat × Nat)
  | _, [] => []
  | i, c :: rest => (c.id, i * 500) :: staggered (i + 1) rest

/-- The download timers handleDownloadAll schedules: nothing when no job is
completed (it only shows a toast), otherwise one staggered timer per
completed job. -/
def downloadAllSchedule (s : BatchSession) : List (Nat × Nat) :=
  if (s.conversions.filter (fun c => c.status == Status.completed)).isEmpty then []
  else staggered 0 (s.conversions.filter (fun c => c.status == Status.completed))

/-- Whether handleDownload, called with this id when a timer fires, actually
triggers a browser download: the job it finds must be completed and carry a
download handle. -/
def handleDownloadFires (s : BatchSession) (conversionId : Nat) : Bool :=
  match s.conversions.find? (fun c => c.id == conversionId) with
  | some c => c.status == Status.completed && c.downloadUrl.isSome
  | none => false

/-- The scheduled timers whose handleDownload call triggers a download. -/
def downloadAllTriggered (s : BatchSession) : List (Nat × Nat) :=
  (downloadAllSchedule s).filter (fun p => handleDownloadFires s p.1)

/-- One entry of the upload response consumed by the validating handleFiles. -/
structure UploadedFileRec where
  id : Nat
  source_format : String
  supported_formats : List String
deriving DecidableEq, Repr

/-- The conversion object built from one upload-response entry. -/
def recToJob (r : UploadedFileRec) : ConversionJob :=
  { id := r.id, originalFormat := r.source_format, targetFormat := "",
    status := Status.ready, progress := 0,
    supportedFormats := r.supported_formats, downloadUrl := none, error := none }

/-- The validationErrors array handleFiles collects: one (file name, errors)
pair per file whose validateFile result is non-empty. -/
def collectValidationErrors (files : List JsFile) : List (String × List ValidationError) :=
  (files.map (fun f => (f.name, validateFile f))).filter (fun p => !p.2.isEmpty)

/-- The validating handleFiles (the HeroSection variant that imports the
error handler): an empty file list does nothing; when any file fails
validation, the per-file error toasts are shown and the function returns
before touching any state; otherwise the upload either fails (generic error
toast, only selectedFiles was set) or succeeds and replaces conversions with
fresh ready jobs and enters the conversion interface.  The upload parameter
stands for the fetch result; the second component lists the error toast
descriptions shown. -/
def handleFiles (upload : Option (List UploadedFileRec)) (files : List JsFile)
    (s : BatchSession) : BatchSession × List String :=
  if files.isEmpty then (s, [])
  else if !(collectValidationErrors files).isEmpty then
    (s, (collectValidationErrors files).flatMap (fun p => p.2.map (fun e => e.message)))
  else
    match upload with
    | none => ({ s with selectedFiles := files }, ["Something went wrong. Please try again."])
    | some recs =>
        ({ s with
           selectedFiles := files
           conversions := recs.map recToJob
           showConversionInterface := true }, [])

/-! Helper lemmas about the embedding. -/

/-- The final state a selected job reaches, as a function of the request
outcome. -/
def finalAt (r : Except String String) (c : ConversionJob) : ConversionJob :=
  match r with
  | Except.ok url => succeedJob url (progressSim (startJob c))
  | Except.error msg => failJob msg (startJob c)

/-- The final state of a selected job under the outcome assignment. -/
def finalOf (outcome : Nat → Except String String) (c : ConversionJob) : ConversionJob :=
  finalAt (outcome c.id) c

/-- Whether an outcome is a success. -/
def exceptOk (r : Except String String) : Bool :=
  match r with
  | Except.ok _ => true
  | Except.error _ => false

/-- The effect of the convert loop on one list element, per selected job. -/
def stepAt (outcome : Nat → Except String String) (c j : ConversionJob) : ConversionJob :=
  if c.id = j.id then finalAt (outcome j.id) c else c

theorem finalAt_id (r : Except String String) (c : ConversionJob) :
    (finalAt r c).id = c.id := by
  cases r <;> rfl

theorem listMapCongr {α β : Type} {f g : α → β} :
    ∀ {l : List α}, (∀ x ∈ l, f x = g x) → l.map f = l.map g := by
  intro l
  induction l with
  | nil => intro _; rfl
  | cons a rest ih =>
      intro h
      simp only [List.map_cons]
      rw [h a (List.mem_cons_self a rest), ih (fun x hx => h x (List.mem_cons_of_mem a hx))]

theorem convertOne_conversions (outcome : Nat → Except String String)
    (s : BatchSession) (j : ConversionJob) :
    (convertOne outcome s j).conversions = setById j.id (finalAt (outcome j.id)) s.conversions := by
  unfold convertOne
  cases h : outcome j.id <;> simp [h, finalAt, setById]

theorem convertOne_completed (outcome : Nat → Except String String)
    (s : BatchSession) (j : ConversionJob) :
    (convertOne outcome s j).completedConversions =
      if exceptOk (outcome j.id) then s.completedConversions ++ [j.id]
      else s.completedConversions := by
  unfold convertOne
  cases h : outcome j.id <;> simp [h, exceptOk]

theorem foldl_convertOne_conversions (outcome : Nat → Except String String) :
    ∀ (todo : List ConversionJob) (s : BatchSession),
      (todo.foldl (convertOne outcome) s).conversions
        = s.conversions.map (fun c => todo.foldl (stepAt outcome) c) := by
  intro todo
  induction todo with
  | nil => intro s; simp
  | cons j rest ih =>
      intro s
      rw [List.foldl_cons, ih, convertOne_conversions]
      unfold setById
      rw [List.map_map]
      apply listMapCongr
      intro c _
      simp only [Function.comp, List.foldl_cons, stepAt]

theorem foldl_convertOne_completed (outcome : Nat → Except String String) :
    ∀ (todo : List ConversionJob) (s : BatchSession),
      (todo.foldl (convertOne outcome) s).completedConversions
        = s.completedConversions
          ++ (todo.filter (fun j => exceptOk (outcome j.id))).map (fun c => c.id) := by
  intro todo
  induction todo with
  | nil => intro s; simp
  | cons j rest ih =>
      intro s
      rw [List.foldl_cons, ih, convertOne_completed]
      by_cases h : exceptOk (outcome j.id) = true
      · simp [h, List.filter_cons]
      · simp [h, List.filter_cons]

theorem stepAt_foldl_not_mem (outcome : Nat → Except String String) :
    ∀ (todo : List ConversionJob) (c : ConversionJob),
      c.id ∉ todo.map (fun j => j.id) → todo.foldl (stepAt outcome) c = c := by
  intro todo
  induction todo with
  | nil => intro c _; rfl
  | cons j rest ih =>
      intro c h
      simp only [List.map_cons, List.mem_cons] at h
      push_neg at h
      rw [List.foldl_cons]
      unfold stepAt
      rw [if_neg h.1]
      exact ih c h.2

theorem stepAt_foldl_mem (outcome : Nat → Except String String) :
    ∀ (todo : List ConversionJob) (c : ConversionJob),
      (todo.map (fun j => j.id)).Nodup → c.id ∈ todo.map (fun j => j.id) →
      todo.foldl (stepAt outcome) c = finalAt (outcome c.id) c := by
  intro todo
  induction todo with
  | nil => intro c _ h; cases h
  | cons j rest ih =>
      intro c hnd hmem
      simp only [List.map_cons, List.nodup_cons] at hnd
      rw [List.foldl_cons]
      by_cases heq : c.id = j.id
      · unfold stepAt
        rw [if_pos heq, ← heq]
        apply stepAt_foldl_not_mem
        rw [finalAt_id, heq]
        exact hnd.1
      · unfold stepAt
        rw [if_neg heq]
        apply ih c hnd.2
        simp only [List.map_cons, List.mem_cons] at hmem
        exact hmem.resolve_left heq

theorem ready_ids_nodup (s : BatchSession)
    (hids : (s.conversions.map (fun c => c.id)).Nodup) :
    ((s.conversions.filter (fun c => c.targetFormat != "")).map (fun c => c.id)).Nodup :=
  hids.sublist ((List.filter_sublist s.conversions).map (fun c => c.id))

theorem id_mem_ready_iff (s : BatchSession)
    (hids : (s.conversions.map (fun c => c.id)).Nodup)
    (c : ConversionJob) (hc : c ∈ s.conversions) :
    c.id ∈ ((s.conversions.filter (fun c => c.targetFormat != "")).map (fun c => c.id))
      ↔ c.targetFormat ≠ "" := by
  constructor
  · intro h
    obtain ⟨j, hj, hjid⟩ := List.mem_map.mp h
    obtain ⟨hjmem, hjtf⟩ := List.mem_filter.mp hj
    have : j = c := List.inj_on_of_nodup_map hids hjmem hc hjid
    rw [← this]
    exact bne_iff_ne.mp hjtf
  · intro h
    exact List.mem_map.mpr ⟨c, List.mem_filter.mpr ⟨hc, bne_iff_ne.mpr h⟩, rfl⟩

theorem handleConvertAll_spec (outcome : Nat → Except String String) (s : BatchSession)
    (hids : (s.conversions.map (fun c => c.id)).Nodup) :
    (s.conversions.filter (fun c => c.targetFormat != "") = [] →
        handleConvertAll outcome s = (s, some validationMsg)) ∧
    (s.conversions.filter (fun c => c.targetFormat != "") ≠ [] →
        (handleConvertAll outcome s).2 = none ∧
        (handleConvertAll outcome s).1.conversions
          = s.conversions.map (fun c => if c.targetFormat = "" then c else finalOf outcome c) ∧
        (handleConvertAll outcome s).1.completedConversions
          = s.completedConversions
            ++ ((s.conversions.filter (fun c => c.targetFormat != "")).filter
                  (fun j => exceptOk (outcome j.id))).map (fun c => c.id)) := by
  constructor
  · intro h
    unfold handleConvertAll
    rw [h]
    rfl
  · intro h
    have hemp : (s.conversions.filter (fun c => c.targetFormat != "")).isEmpty = false := by
      cases heq : s.conversions.filter (fun c => c.targetFormat != "") with
      | nil => exact absurd heq h
      | cons a l => rfl
    unfold handleConvertAll
    rw [hemp]
    refine ⟨rfl, ?_, ?_⟩
    · show (List.foldl (convertOne outcome) { s with isConverting := true } _).conversions = _
      rw [foldl_convertOne_conversions]
      show s.conversions.map _ = _
      apply listMapCongr
      intro c hc
      by_cases htf : c.targetFormat = ""
      · rw [if_pos htf]
        apply stepAt_foldl_not_mem
        rw [id_mem_ready_iff s hids c hc]
        simp [htf]
      · rw [if_neg htf]
        exact stepAt_foldl_mem outcome _ c (ready_ids_nodup s hids)
          ((id_mem_ready_iff s hids c hc).mpr htf)
    · show (List.foldl (convertOne outcome) { s with isConverting := true } _).completedConversions = _
      rw [foldl_convertOne_completed]

/-- The one-directional correlation between status and payloads that the
spread updates actually maintain. -/
def jobInv (c : ConversionJob) : Prop :=
  (c.status = Status.completed → c.downloadUrl.isSome = true) ∧
  (c.status = Status.failed → c.error.isSome = true)

instance jobInvDecidable (c : ConversionJob) : Decidable (jobInv c) :=
  inferInstanceAs (Decidable (_ ∧ _))

theorem jobInv_applyEvent (c : ConversionJob) (e : JobEvent) (h : jobInv c) :
    jobInv (applyEvent c e) := by
  cases e with
  | selectTarget f => exact h
  | start => exact ⟨fun hs => (nomatch hs), fun hs => (nomatch hs)⟩
  | progress p => exact h
  | succeed url => exact ⟨fun _ => rfl, fun hs => (nomatch hs)⟩
  | fail msg => exact ⟨fun hs => (nomatch hs), fun _ => rfl⟩

theorem jobInv_runEvents :
    ∀ (es : List JobEvent) (c : ConversionJob), jobInv c → jobInv (runEvents c es) := by
  intro es
  induction es with
  | nil => intro c h; exact h
  | cons e rest ih =>
      intro c h
      exact ih (applyEvent c e) (jobInv_applyEvent c e h)

theorem emptyFile_mem_validate (f : JsFile) (h0 : f.size = 0) :
    ({ message := msgEmptyFile, field := "size" } : ValidationError) ∈ validateFile f := by
  unfold validateFile
  refine List.mem_append_left _ (List.mem_append_right _ ?_)
  rw [if_pos h0]
  exact List.mem_singleton.mpr rfl

theorem handleFiles_invalid (upload : Option (List UploadedFileRec)) (files : List JsFile)
    (s : BatchSession) (f : JsFile) (hf : f ∈ files) (hval : validateFile f ≠ []) :
    handleFiles upload files s =
      (s, (collectValidationErrors files).flatMap (fun p => p.2.map (fun e => e.message))) := by
  have hne : files.isEmpty = false := by
    cases files with
    | nil => cases hf
    | cons a l => rfl
  have hmem : (f.name, validateFile f) ∈ collectValidationErrors files := by
    refine List.mem_filter.mpr ⟨List.mem_map.mpr ⟨f, hf, rfl⟩, ?_⟩
    cases hv : validateFile f with
    | nil => exact absurd hv hval
    | cons a l => rfl
  have hce : (collectValidationErrors files).isEmpty = false := by
    cases hc : collectValidationErrors files with
    | nil => rw [hc] at hmem; cases hmem
    | cons a l => rfl
  unfold handleFiles
  rw [hne, hce]
  rfl

theorem staggered_map_fst :
    ∀ (l : List ConversionJob) (i : Nat),
      (staggered i l).map Prod.fst = l.map (fun c => c.id) := by
  intro l
  induction l with
  | nil => intro i; rfl
  | cons c rest ih =>
      intro i
      simp [staggered, ih (i + 1)]

theorem staggered_mem_fst :
    ∀ (l : List ConversionJob) (i : Nat) (p : Nat × Nat),
      p ∈ staggered i l → ∃ c ∈ l, p.1 = c.id := by
  intro l
  induction l with
  | nil => intro i p hp; cases hp
  | cons c rest ih =>
      intro i p hp
      rcases List.mem_cons.mp hp with h | h
      · exact ⟨c, List.mem_cons_self c rest, by rw [h]⟩
      · obtain ⟨d, hd, hpd⟩ := ih (i + 1) p h
        exact ⟨d, List.mem_cons_of_mem c hd, hpd⟩

theorem staggered_consecutive :
    ∀ (l : List ConversionJob) (k : Nat) (pre : List (Nat × Nat)) (a b : Nat × Nat)
      (post : List (Nat × Nat)),
      staggered k l = pre ++ a :: b :: post → b.2 = a.2 + 500 := by
  intro l
  induction l with
  | nil =>
      intro k pre a b post h
      cases pre <;> simp [staggered] at h
  | cons c rest ih =>
      intro k pre a b post h
      cases pre with
      | nil =>
          rw [staggered, List.nil_append] at h
          obtain ⟨ha, hrest⟩ := List.cons.injEq _ _ _ _ ▸ h
          cases rest with
          | nil => simp [staggered] at hrest
          | cons d r2 =>
              rw [staggered] at hrest
              obtain ⟨hb, _⟩ := List.cons.injEq _ _ _ _ ▸ hrest
              rw [← ha, ← hb]
              show (k + 1) * 500 = k * 500 + 500
              ring
      | cons x pre2 =>
          rw [staggered, List.cons_append] at h
          exact ih (k + 1) pre2 a b post (List.tail_eq_of_cons_eq h)

theorem find?_eq_self_of_nodup :
    ∀ (l : List ConversionJob) (c : ConversionJob),
      (l.map (fun x => x.id)).Nodup → c ∈ l →
      l.find? (fun x => x.id == c.id) = some c := by
  intro l
  induction l with
  | nil => intro c _ hc; cases hc
  | cons a rest ih =>
      intro c hnd hc
      simp only [List.map_cons, List.nodup_cons] at hnd
      by_cases heq : a.id = c.id
      · rw [List.find?_cons_of_pos _ (by simp [heq])]
        rcases List.mem_cons.mp hc with h | h
        · rw [h]
        · exact absurd (heq ▸ List.mem_map.mpr ⟨c, h, rfl⟩) hnd.1
      · rw [List.find?_cons_of_neg _ (by simp [heq])]
        apply ih c hnd.2
        rcases List.mem_cons.mp hc with h | h
        · exact absurd (h ▸ rfl) heq
        · exact h

theorem forall2_map_self {α : Type} {rel : α → α → Prop} {f : α → α} :
    ∀ {l : List α}, (∀ c ∈ l, rel c (f c)) → List.Forall₂ rel l (l.map f) := by
  intro l
  induction l with
  | nil => intro _; exact List.Forall₂.nil
  | cons a rest ih =>
      intro h
      exact List.Forall₂.cons (h a (List.mem_cons_self a rest))
        (ih (fun c hc => h c (List.mem_cons_of_mem a hc)))

theorem fmtUpd_idem (conversionId : Nat) (format : String) (c : ConversionJob) :
    fmtUpd conversionId format (fmtUpd conversionId format c) = fmtUpd conversionId format c := by
  unfold fmtUpd
  by_cases h : c.id = conversionId
  · rw [if_pos h]
    show (if c.id = conversionId then _ else _) = _
    rw [if_pos h]
  · rw [if_neg h, if_neg h]

/-! Concrete inputs used by witnesses and counterexamples. -/

/-- A fresh ready job as handleFiles creates it, with a chosen target. -/
def demoJob (i : Nat) (tf : String) : ConversionJob :=
  { id := i, originalFormat := "JPG", targetFormat := tf, status := Status.ready,
    progress := 0, supportedFormats := ["PNG", "PDF"], downloadUrl := none, error := none }

/-- A session in conversion mode holding the given jobs. -/
def demoSession (jobs : List ConversionJob) : BatchSession :=
  { selectedFiles := [], conversions := jobs, completedConversions := [],
    showConversionInterface := true, isConverting := false }

/-- An outcome assignment under which every conversion request succeeds. -/
def okOut : Nat → Except String String := fun _ => Except.ok "blob:demo"

/-- An outcome assignment under which every conversion request fails. -/
def failOut : Nat → Except String String := fun _ => Except.error "Conversion failed"

/-- A one-job batch with a selected target, before any conversion. -/
def c1Batch0 : BatchSession := demoSession [demoJob 1 "PNG"]

/-- The same batch after a successful convert-all run. -/
def c1Batch1 : BatchSession := (handleConvertAll okOut c1Batch0).1

/-- The same batch after a second convert-all run whose request fails. -/
def c1Batch2 : BatchSession := (handleConvertAll failOut c1Batch1).1

/-! Claim C1. -/

/-- C1 counterexample: running convert-all on a one-job batch (success),
then again with a failing request, leaves a job that is failed while still
carrying the earlier download handle -- the fail update does not clear it.
Running convert-all a third time (success) then yields a completed job that
still carries the stale error message. -/
theorem C1_counterexample :
    (c1Batch2.conversions.map (fun c => (c.status, c.downloadUrl))
        = [(Status.failed, some "blob:demo")]) ∧
    ((handleConvertAll okOut c1Batch2).1.conversions.map (fun c => (c.status, c.error))
        = [(Status.completed, some "Conversion failed")]) := by
  constructor <;> rfl

/-- C1 (amended): after any sequence of transitions from a job satisfying
the one-directional invariant (in particular any freshly created job),
status completed implies the download handle is set and status failed
implies the error detail is set; the fail update sets progress to 0 and the
error detail but leaves any existing download handle in place. -/
theorem C1_job_invariant (c0 : ConversionJob) (es : List JobEvent) (h : jobInv c0) :
    jobInv (runEvents c0 es) ∧
    ∀ msg : String,
      (failJob msg (runEvents c0 es)).progress = 0 ∧
      (failJob msg (runEvents c0 es)).error = some msg ∧
      (failJob msg (runEvents c0 es)).downloadUrl = (runEvents c0 es).downloadUrl := by
  exact ⟨jobInv_runEvents es c0 h, fun msg => ⟨rfl, rfl, rfl⟩⟩

/-- Witness for C1: the amended invariant applied to a concrete fresh job
driven through start and succeed. -/
theorem C1_job_invariant_witness :
    (runEvents (demoJob 1 "PNG") [JobEvent.start, JobEvent.succeed "blob:demo"]).downloadUrl.isSome
      = true :=
  (C1_job_invariant (demoJob 1 "PNG") [JobEvent.start, JobEvent.succeed "blob:demo"]
    (by decide)).1.1 (by decide)

/-! Claim C2. -/

/-- A job in converting status, as startJob leaves it. -/
def c2Job : ConversionJob := startJob (demoJob 1 "PNG")

/-- C2 counterexample: feeding the progress sequence 10, 30, 20 to a
converting job leaves the recorded progress at 20, strictly below the
previous maximum 30 -- decreasing updates are applied, not ignored. -/
theorem C2_counterexample :
    (runEvents c2Job [JobEvent.progress 10, JobEvent.progress 30]).progress = 30 ∧
    (runEvents c2Job [JobEvent.progress 10, JobEvent.progress 30, JobEvent.progress 20]).progress
      = 20 ∧
    (runEvents c2Job [JobEvent.progress 10, JobEvent.progress 30, JobEvent.progress 20]).status
      = Status.converting ∧
    20 < 30 := by
  exact ⟨rfl, rfl, rfl, by decide⟩

/-- C2 (amended): a progress event overwrites the recorded progress with the
delivered value (last write wins) and leaves the status unchanged; the
sequence 10, 30, 20, 80 therefore ends at 80, after having dipped to 20. -/
theorem C2_progress_last_write (c : ConversionJob) (p : Nat) :
    (progressUpdate p c).progress = p ∧
    (progressUpdate p c).status = c.status ∧
    (runEvents c [JobEvent.progress 10, JobEvent.progress 30, JobEvent.progress 20,
        JobEvent.progress 80]).progress = 80 ∧
    (runEvents c [JobEvent.progress 10, JobEvent.progress 30,
        JobEvent.progress 20]).progress = 20 := by
  exact ⟨rfl, rfl, rfl, rfl⟩

/-! Claim C3. -/

/-- C3 counterexample: after a successful run, the single job is completed
(not ready) and still has its target format; a second convert-all call
starts it again (its status changes to failed under a failing request) and
shows no validation message, so the selection is not restricted to jobs in
ready status. -/
theorem C3_counterexample :
    (c1Batch1.conversions.map (fun c => c.status) = [Status.completed]) ∧
    ((handleConvertAll failOut c1Batch1).1.conversions.map (fun c => c.status)
        = [Status.failed]) ∧
    (handleConvertAll failOut c1Batch1).2 = none := by
  exact ⟨rfl, rfl, rfl⟩

/-- C3 (amended): when no job has a target format, convert-all shows the
validation message and changes nothing; otherwise it shows no message and
converts exactly the jobs whose target format is non-empty -- regardless of
their status -- while leaving every job without a target format unchanged.
Ids are assumed pairwise distinct, as the intake generates them. -/
theorem C3_convertAll_selection (outcome : Nat → Except String String) (s : BatchSession)
    (hids : (s.conversions.map (fun c => c.id)).Nodup) :
    ((∀ c ∈ s.conversions, c.targetFormat = "") →
        handleConvertAll outcome s = (s, some validationMsg)) ∧
    ((∃ c ∈ s.conversions, c.targetFormat ≠ "") →
        (handleConvertAll outcome s).2 = none ∧
        (handleConvertAll outcome s).1.conversions
          = s.conversions.map (fun c => if c.targetFormat = "" then c else finalOf outcome c)) := by
  have hspec := handleConvertAll_spec outcome s hids
  constructor
  · intro h
    apply hspec.1
    apply List.filter_eq_nil_iff.mpr
    intro c hc
    simp [h c hc]
  · intro h
    obtain ⟨c, hc, hne⟩ := h
    have hfil : s.conversions.filter (fun c => c.targetFormat != "") ≠ [] := by
      apply List.ne_nil_of_mem (a := c)
      exact List.mem_filter.mpr ⟨hc, bne_iff_ne.mpr hne⟩
    exact ⟨(hspec.2 hfil).1, (hspec.2 hfil).2.1⟩

/-- A two-job batch: job 1 has a target selected, job 2 does not. -/
def c3Batch : BatchSession := demoSession [demoJob 1 "PNG", demoJob 2 ""]

/-- Witness for C3: the amended statement applied to a concrete mixed
batch -- the job with a target is converted, the other is untouched, and no
validation message is shown. -/
theorem C3_convertAll_selection_witness :
    (handleConvertAll okOut c3Batch).2 = none ∧
    (handleConvertAll okOut c3Batch).1.conversions
      = c3Batch.conversions.map
          (fun c => if c.targetFormat = "" then c else finalOf okOut c) :=
  (C3_convertAll_selection okOut c3Batch (by decide)).2
    ⟨demoJob 1 "PNG", by decide, by decide⟩

/-! Claim C4. -/

/-- The batch after removing the completed job of c1Batch1. -/
def c4Removed : BatchSession := removeFile 1 c1Batch1

/-- C4 counterexample: removing the only (completed) job empties the jobs
list but leaves its id inside completedConversions, so removeFile does not
remove the id from the completed set and the subset invariant breaks. -/
theorem C4_counterexample :
    c1Batch1.completedConversions = [1] ∧
    c4Removed.conversions = [] ∧
    c4Removed.completedConversions = [1] := by
  exact ⟨rfl, rfl, rfl⟩

/-- C4 (amended): for a fresh batch (all jobs ready, distinct ids, no prior
completions) a convert-all run appends to completedConversions exactly the
ids of the selected jobs whose request succeeded, and afterwards a job id is
in completedConversions exactly when that job is completed; removeFile, by
contrast, never touches completedConversions. -/
theorem C4_batch_completed (outcome : Nat → Except String String) (s : BatchSession)
    (hids : (s.conversions.map (fun c => c.id)).Nodup)
    (hfresh : s.completedConversions = [])
    (hready : ∀ c ∈ s.conversions, c.status = Status.ready) :
    ((handleConvertAll outcome s).1.completedConversions
        = ((s.conversions.filter (fun c => c.targetFormat != "")).filter
            (fun j => exceptOk (outcome j.id))).map (fun c => c.id)) ∧
    (∀ c ∈ (handleConvertAll outcome s).1.conversions,
        (c.id ∈ (handleConvertAll outcome s).1.completedConversions
          ↔ c.status = Status.completed)) ∧
    (∀ (t : BatchSession) (conversionId : Nat),
        (removeFile conversionId t).completedConversions = t.completedConversions) := by
  have hspec := handleConvertAll_spec outcome s hids
  have hremove : ∀ (t : BatchSession) (conversionId : Nat),
      (removeFile conversionId t).completedConversions = t.completedConversions := by
    intro t conversionId
    unfold removeFile
    by_cases h : t.conversions.length = 1 <;> simp [h]
  have hokids : ∀ c ∈ s.conversions,
      (c.id ∈ ((s.conversions.filter (fun c => c.targetFormat != "")).filter
          (fun j => exceptOk (outcome j.id))).map (fun c => c.id)
        ↔ (c.targetFormat ≠ "" ∧ exceptOk (outcome c.id) = true)) := by
    intro c hc
    constructor
    · intro h
      obtain ⟨j, hj, hjid⟩ := List.mem_map.mp h
      obtain ⟨hj1, hjok⟩ := List.mem_filter.mp hj
      obtain ⟨hjmem, hjtf⟩ := List.mem_filter.mp hj1
      have : j = c := List.inj_on_of_nodup_map hids hjmem hc hjid
      rw [← this]
      exact ⟨bne_iff_ne.mp hjtf, hjok⟩
    · intro ⟨htf, hok⟩
      exact List.mem_map.mpr
        ⟨c, List.mem_filter.mpr ⟨List.mem_filter.mpr ⟨hc, bne_iff_ne.mpr htf⟩, hok⟩, rfl⟩
  by_cases hfil : s.conversions.filter (fun c => c.targetFormat != "") = []
  · have heq := hspec.1 hfil
    refine ⟨?_, ?_, hremove⟩
    · rw [heq, hfresh, hfil]
      rfl
    · intro c hc
      rw [heq] at hc ⊢
      rw [hfresh]
      constructor
      · intro h
        cases h
      · intro h
        rw [hready c hc] at h
        cases h
  · obtain ⟨-, hconv, hcomp⟩ := hspec.2 hfil
    rw [hcomp, hfresh, List.nil_append]
    refine ⟨rfl, ?_, hremove⟩
    intro c2 hc2
    rw [hconv] at hc2
    obtain ⟨c, hc, hcc⟩ := List.mem_map.mp hc2
    rw [← hcc]
    by_cases htf : c.targetFormat = ""
    · rw [if_pos htf]
      rw [hokids c hc]
      constructor
      · intro h
        exact absurd h.1 (not_not.mpr htf)
      · intro h
        rw [hready c hc] at h
        cases h
    · rw [if_neg htf]
      rw [show (finalOf outcome c).id = c.id from finalAt_id _ c]
      rw [hokids c hc]
      cases hout : outcome c.id with
      | ok url =>
          simp [finalOf, hout, finalAt, exceptOk, succeedJob, htf]
      | error msg =>
          simp [finalOf, hout, finalAt, exceptOk, failJob, startJob, htf]

/-- An outcome assignment under which only job 2 fails. -/
def c4Out : Nat → Except String String :=
  fun i => if i = 2 then Except.error "Conversion failed" else Except.ok "blob:demo"

/-- A fresh three-job batch with targets selected for all three jobs. -/
def c4Batch : BatchSession :=
  demoSession [demoJob 1 "PNG", demoJob 2 "PDF", demoJob 3 "WEBP"]

/-- Witness for C4: in a fresh batch of three jobs where two requests
succeed and one fails, completedConversions ends up holding exactly the two
successful ids. -/
theorem C4_batch_completed_witness :
    (handleConvertAll c4Out c4Batch).1.completedConversions = [1, 3] := by
  have h := (C4_batch_completed c4Out c4Batch (by decide) rfl (by decide)).1
  rw [h]
  rfl

/-! Claim C5. -/

/-- A valid text file. -/
def validTxt : JsFile := { name := "notes.txt", type := "text/plain", size := 10240 }

/-- An empty text file. -/
def emptyTxt : JsFile := { name := "empty.txt", type := "text/plain", size := 0 }

/-- A session with no jobs, still in upload mode. -/
def freshSession : BatchSession :=
  { selectedFiles := [], conversions := [], completedConversions := [],
    showConversionInterface := false, isConverting := false }

/-- An upload response that would cover both demo files. -/
def c5Upload : Option (List UploadedFileRec) :=
  some [{ id := 11, source_format := "TXT", supported_formats := ["PDF"] },
        { id := 12, source_format := "TXT", supported_formats := ["PDF"] }]

/-- C5 counterexample: a batch holding one valid file and one empty file is
rejected wholesale -- although the upload response would cover both files,
no conversion job is created for the valid file either. -/
theorem C5_counterexample :
    validateFile validTxt = [] ∧
    validateFile emptyTxt = [{ message := msgEmptyFile, field := "size" }] ∧
    (handleFiles c5Upload [validTxt, emptyTxt] freshSession).1 = freshSession := by
  refine ⟨by decide, by decide, by decide⟩

/-- C5 (amended): the validating intake surfaces one error toast per
validation error of each invalid file, but it is not fail-soft: as soon as
any file in the batch is invalid the whole batch is aborted, the session is
left unchanged and no record is produced for the valid files either. -/
theorem C5_intake_aborts (upload : Option (List UploadedFileRec)) (files : List JsFile)
    (s : BatchSession) (h : ∃ f ∈ files, validateFile f ≠ []) :
    (handleFiles upload files s).1 = s ∧
    (handleFiles upload files s).2
      = (collectValidationErrors files).flatMap (fun p => p.2.map (fun e => e.message)) := by
  obtain ⟨f, hf, hval⟩ := h
  rw [handleFiles_invalid upload files s f hf hval]
  exact ⟨rfl, rfl⟩

/-- Witness for C5: the amended statement applied to a concrete batch whose
only file is empty, over a session already holding one job. -/
theorem C5_intake_aborts_witness :
    (handleFiles none [emptyTxt] (demoSession [demoJob 9 ""])).1
      = demoSession [demoJob 9 ""] :=
  (C5_intake_aborts none [emptyTxt] (demoSession [demoJob 9 ""])
    ⟨emptyTxt, by decide, by decide⟩).1

/-! Claim C6. -/

/-- C6: a zero-byte file always carries the EmptyFile validation error, and
feeding it (alone) to the validating intake of an empty upload-mode session
creates no conversion job and stays in upload mode, whatever the upload
response would have been. -/
theorem C6_empty_file_rejected (upload : Option (List UploadedFileRec)) (f : JsFile)
    (s : BatchSession) (h0 : f.size = 0) (hc : s.conversions = [])
    (hui : s.showConversionInterface = false) :
    ({ message := msgEmptyFile, field := "size" } : ValidationError) ∈ validateFile f ∧
    (handleFiles upload [f] s).1.conversions = [] ∧
    (handleFiles upload [f] s).1.showConversionInterface = false := by
  have hmem := emptyFile_mem_validate f h0
  have habort := handleFiles_invalid upload [f] s f (List.mem_singleton.mpr rfl)
    (List.ne_nil_of_mem hmem)
  rw [habort]
  exact ⟨hmem, hc, hui⟩

/-- A concrete zero-byte file. -/
def zeroFile : JsFile := { name := "zero.txt", type := "text/plain", size := 0 }

/-- Witness for C6: the theorem applied to a concrete zero-byte file and the
fresh session. -/
theorem C6_empty_file_rejected_witness :
    ({ message := msgEmptyFile, field := "size" } : ValidationError) ∈ validateFile zeroFile ∧
    (handleFiles none [zeroFile] freshSession).1.conversions = [] ∧
    (handleFiles none [zeroFile] freshSession).1.showConversionInterface = false :=
  C6_empty_file_rejected none zeroFile freshSession rfl rfl rfl

/-! Claim C7. -/

/-- C7: the format capability table never returns an empty target list, and
every source format outside the six advertised keys gets the generic
fallback list. -/
theorem C7_lookup_nonempty (sourceFormat : String) :
    getSupportedFormats sourceFormat ≠ [] ∧
    (sourceFormat ∉ advertisedSourceFormats →
        getSupportedFormats sourceFormat = ["PDF", "JPG", "PNG", "TXT"]) := by
  constructor
  · unfold getSupportedFormats
    split_ifs <;> simp
  · intro h
    simp only [advertisedSourceFormats, List.mem_cons, List.not_mem_nil] at h
    push_neg at h
    obtain ⟨h1, h2, h3, h4, h5, ⟨h6, -⟩⟩ := h
    unfold getSupportedFormats
    rw [if_neg h1, if_neg h2, if_neg h3, if_neg h4, if_neg h5, if_neg h6]

/-- Witness for C7: an unadvertised source format gets the fallback list. -/
theorem C7_lookup_nonempty_witness :
    getSupportedFormats "XYZ" = ["PDF", "JPG", "PNG", "TXT"] :=
  (C7_lookup_nonempty "XYZ").2 (by decide)

/-! Claim C8. -/

/-- C8: the timers that actually trigger a download correspond exactly, in
order, to the jobs currently in completed status, and any two consecutive
triggered downloads are scheduled 500ms apart.  Ids are assumed pairwise
distinct and completed jobs carry a download handle, as every reachable
session does. -/
theorem C8_downloadAll (s : BatchSession)
    (hids : (s.conversions.map (fun c => c.id)).Nodup)
    (hurl : ∀ c ∈ s.conversions, c.status = Status.completed → c.downloadUrl.isSome = true) :
    ((downloadAllTriggered s).map Prod.fst
        = (s.conversions.filter (fun c => c.status == Status.completed)).map (fun c => c.id)) ∧
    (∀ (pre : List (Nat × Nat)) (a b : Nat × Nat) (post : List (Nat × Nat)),
        downloadAllTriggered s = pre ++ a :: b :: post → b.2 = a.2 + 500) := by
  have hall : ∀ p ∈ downloadAllSchedule s, handleDownloadFires s p.1 = true := by
    intro p hp
    unfold downloadAllSchedule at hp
    by_cases hemp : (s.conversions.filter (fun c => c.status == Status.completed)).isEmpty
    · rw [if_pos hemp] at hp
      cases hp
    · rw [if_neg hemp] at hp
      obtain ⟨c, hcmem, hfst⟩ := staggered_mem_fst _ 0 p hp
      have hc2 := List.mem_filter.mp hcmem
      have hcs : c.status = Status.completed := by
        have := hc2.2
        simpa using this
      unfold handleDownloadFires
      rw [hfst, find?_eq_self_of_nodup s.conversions c hids hc2.1]
      simp [hcs, hurl c hc2.1 hcs]
  have htrig : downloadAllTriggered s = downloadAllSchedule s := by
    unfold downloadAllTriggered
    exact List.filter_eq_self.mpr hall
  constructor
  · rw [htrig]
    unfold downloadAllSchedule
    by_cases hemp : (s.conversions.filter (fun c => c.status == Status.completed)).isEmpty
    · rw [if_pos hemp]
      rw [List.isEmpty_iff.mp hemp]
      rfl
    · rw [if_neg hemp]
      exact staggered_map_fst _ 0
  · intro pre a b post h
    rw [htrig] at h
    unfold downloadAllSchedule at h
    by_cases hemp : (s.conversions.filter (fun c => c.status == Status.completed)).isEmpty
    · rw [if_pos hemp] at h
      cases pre <;> simp at h
    · rw [if_neg hemp] at h
      exact staggered_consecutive _ 0 pre a b post h

/-- A completed job with a download handle. -/
def c8Job1 : ConversionJob :=
  { demoJob 1 "PNG" with
    status := Status.completed,
    progress := 100,
    downloadUrl := some "blob:a" }

/-- Another completed job with a download handle. -/
def c8Job3 : ConversionJob :=
  { demoJob 3 "PDF" with
    status := Status.completed,
    progress := 100,
    downloadUrl := some "blob:b" }

/-- A session with two completed jobs (with handles) and one ready job. -/
def c8Batch : BatchSession := demoSession [c8Job1, demoJob 2 "", c8Job3]

/-- Witness for C8: on the concrete session, the triggered downloads are
exactly the two completed jobs. -/
theorem C8_downloadAll_witness :
    (downloadAllTriggered c8Batch).map Prod.fst
      = (c8Batch.conversions.filter (fun c => c.status == Status.completed)).map
          (fun c => c.id) :=
  (C8_downloadAll c8Batch (by decide) (by decide)).1

/-! Claim C9. -/

/-- C9: for any job not in converting status (in fact for any job at all),
re-selecting the same target format twice equals selecting it once, the
call leaves every session field other than conversions unchanged, and
position by position it leaves id, status and progress unchanged and does
not touch any job with a different id. -/
theorem C9_selectTarget_idempotent (s : BatchSession) (conversionId : Nat) (format : String)
    (h : ∀ c ∈ s.conversions, c.id = conversionId → c.status ≠ Status.converting) :
    handleFormatChange conversionId format (handleFormatChange conversionId format s)
      = handleFormatChange conversionId format s ∧
    (handleFormatChange conversionId format s).completedConversions = s.completedConversions ∧
    (handleFormatChange conversionId format s).selectedFiles = s.selectedFiles ∧
    (handleFormatChange conversionId format s).showConversionInterface
      = s.showConversionInterface ∧
    List.Forall₂
      (fun c c2 => c2.id = c.id ∧ c2.status = c.status ∧ c2.progress = c.progress ∧
        (c.id ≠ conversionId → c2 = c))
      s.conversions (handleFormatChange conversionId format s).conversions := by
  refine ⟨?_, rfl, rfl, rfl, ?_⟩
  · have hmap : (s.conversions.map (fmtUpd conversionId format)).map
        (fmtUpd conversionId format) = s.conversions.map (fmtUpd conversionId format) := by
      rw [List.map_map]
      apply listMapCongr
      intro c _
      simp only [Function.comp]
      exact fmtUpd_idem conversionId format c
    exact congrArg (fun l => ({ s with conversions := l } : BatchSession)) hmap
  · apply forall2_map_self
    intro c _
    unfold fmtUpd
    by_cases hc : c.id = conversionId
    · rw [if_pos hc]
      exact ⟨rfl, rfl, rfl, fun hne => absurd hc hne⟩
    · rw [if_neg hc]
      exact ⟨rfl, rfl, rfl, fun _ => rfl⟩

/-- A two-job session for the C9 witness. -/
def c9Batch : BatchSession := demoSession [demoJob 1 "", demoJob 2 "PDF"]

/-- Witness for C9: re-selecting PNG for job 1 twice equals doing it once. -/
theorem C9_selectTarget_idempotent_witness :
    handleFormatChange 1 "PNG" (handleFormatChange 1 "PNG" c9Batch)
      = handleFormatChange 1 "PNG" c9Batch :=
  (C9_selectTarget_idempotent c9Batch 1 "PNG" (by decide)).1

/-! Claim C10. -/

/-- C10: the FileTooLarge error is reported exactly when the size strictly
exceeds 1073741824 bytes (the literal 1024 * 1024 * 1024 of the source),
the EmptyFile error exactly when the size is 0, and a file with
0 < size <= 1073741824 gets no size-field error at all. -/
theorem C10_validateFile_size_boundary (f : JsFile) :
    (({ message := msgFileTooLarge, field := "size" } : ValidationError) ∈ validateFile f
        ↔ 1073741824 < f.size) ∧
    (({ message := msgEmptyFile, field := "size" } : ValidationError) ∈ validateFile f
        ↔ f.size = 0) ∧
    (0 < f.size → f.size ≤ 1073741824 →
        (validateFile f).filter (fun e => e.field == "size") = []) := by
  have hT : ∀ e ∈ (if !(supportedTypes.any (fun t => strStartsWith f.type t)) &&
        f.name != "" &&
        !(supportedExtensions.contains (extensionOf f.name))
      then [{ message := msgUnsupportedFormat, field := "type" }]
      else ([] : List ValidationError)),
      e = { message := msgUnsupportedFormat, field := "type" } := by
    intro e he
    split at he
    · exact List.mem_singleton.mp he
    · cases he
  refine ⟨?_, ?_, ?_⟩
  · constructor
    · intro hmem
      unfold validateFile at hmem
      rcases List.mem_append.mp hmem with hs | ht
      · rcases List.mem_append.mp hs with ha | hb
        · by_cases h1 : f.size > 1024 * 1024 * 1024
          · exact h1
          · rw [if_neg h1] at ha
            cases ha
        · by_cases h2 : f.size = 0
          · rw [if_pos h2] at hb
            exact absurd (List.mem_singleton.mp hb) (by decide)
          · rw [if_neg h2] at hb
            cases hb
      · exact absurd (hT _ ht) (by decide)
    · intro h1
      unfold validateFile
      apply List.mem_append_left
      apply List.mem_append_left
      rw [if_pos (show f.size > 1024 * 1024 * 1024 from h1)]
      exact List.mem_singleton.mpr rfl
  · constructor
    · intro hmem
      unfold validateFile at hmem
      rcases List.mem_append.mp hmem with hs | ht
      · rcases List.mem_append.mp hs with ha | hb
        · by_cases h1 : f.size > 1024 * 1024 * 1024
          · rw [if_pos h1] at ha
            exact absurd (List.mem_singleton.mp ha) (by decide)
          · rw [if_neg h1] at ha
            cases ha
        · by_cases h2 : f.size = 0
          · exact h2
          · rw [if_neg h2] at hb
            cases hb
      · exact absurd (hT _ ht) (by decide)
    · intro h2
      unfold validateFile
      apply List.mem_append_left
      apply List.mem_append_right
      rw [if_pos h2]
      exact List.mem_singleton.mpr rfl
  · intro hpos hle
    unfold validateFile
    rw [if_neg (show ¬ f.size > 1024 * 1024 * 1024 by omega),
        if_neg (show ¬ f.size = 0 by omega)]
    simp only [List.append_nil, List.nil_append]
    split
    · decide
    · rfl

/-- Witness for C10: a 2 MiB JPEG reports no size-field error. -/
theorem C10_validateFile_size_boundary_witness :
    (validateFile { name := "photo.jpg", type := "image/jpeg", size := 2097152 }).filter
        (fun e => e.field == "size") = [] :=
  (C10_validateFile_size_boundary
      { name := "photo.jpg", type := "image/jpeg", size := 2097152 }).2.2
    (by decide) (by decide)
